import Mathlib

/-!
Shallow embedding of `DevkitSamples/OscBridge/main.py` (the OSC ⇄ WebSocket
bridge) and proofs about it.

Modelling conventions:
* Time instants are rationals (`ℚ`); `asyncio.get_event_loop().time()` becomes
  an explicit `now : ℚ` argument threaded to each handler.
* The module-level mutable globals (`active_connections`, `message_history`,
  `last_update_time`, `pending_messages`) become the fields of `BridgeState`,
  threaded explicitly through each function.
* A Python value passed as an OSC/JSON argument is modelled by `RawArg`:
  `RawArg.num q` stands for any value (int, float, or numeric string such as
  "1.5") that Python `float()` converts successfully, carrying the converted
  value as a rational; `RawArg.str s` stands for a value on which `float()`
  raises `ValueError`.  `float(arg)` becomes `coerceFloat`.
* A WebSocket connection handle is modelled by `Conn`: an identifier plus the
  behaviour of its `send_json` (`sendOk = false` means every send raises).
  Sends actually performed are collected as `(id, message)` event lists.
* An uncaught Python exception becomes an `Except.error` result; the global
  state at the moment of the raise is still returned, since the module globals
  survive the exception.
* `osc_client` is set once in `main()` before any handler runs, so the
  `if osc_client:` guard is modelled as always true; UDP forwards are
  collected as `(address, args)` event lists (fire-and-forget).
-/

namespace OscBridge

/-- `MAX_HISTORY = 100` (main.py line 22). -/
def MAX_HISTORY : Nat := 100

/-- `MIN_UPDATE_INTERVAL = 1/60` (main.py line 28). -/
def MIN_UPDATE_INTERVAL : ℚ := 1/60

/-- A raw inbound argument: either a value Python `float()` converts (carrying
the converted rational) or a value on which `float()` raises. -/
inductive RawArg where
  | num (q : ℚ)
  | str (s : String)
deriving DecidableEq, Repr

/-- `float(arg)`: succeeds exactly on coercible values. -/
def coerceFloat : RawArg → Except String ℚ
  | RawArg.num q => Except.ok q
  | RawArg.str s => Except.error s

/-- `[float(arg) for arg in args]` (main.py lines 80 and 113): left-to-right,
raising at the first non-coercible element. -/
def coerceArgs : List RawArg → Except String (List ℚ)
  | [] => Except.ok []
  | a :: rest =>
    match coerceFloat a with
    | Except.error s => Except.error s
    | Except.ok q =>
      match coerceArgs rest with
      | Except.error s => Except.error s
      | Except.ok qs => Except.ok (q :: qs)

/-- A WebSocket connection handle: identity plus whether its `send_json`
succeeds (`sendOk = false`: every send raises). -/
structure Conn where
  id : Nat
  sendOk : Bool
deriving DecidableEq, Repr

/-- The JSON object passed to `broadcast_to_websockets`
(`type = "osc_message"` with an address and float args). -/
structure OscMessage where
  address : String
  args : List ℚ
deriving DecidableEq, Repr

/-- `message_with_timestamp` (main.py lines 61-64): the wire message actually
stored in history and sent to clients. -/
structure WireMessage where
  address : String
  args : List ℚ
  timestamp : ℚ
deriving DecidableEq, Repr

/-- The module-level mutable globals of main.py as one state record. -/
structure BridgeState where
  activeConnections : List Conn
  messageHistory : List WireMessage
  lastUpdateTime : ℚ
  pendingMessages : List (String × List ℚ)
deriving DecidableEq, Repr

/-- The state at module load: empty connection list, empty history,
`last_update_time = 0`, empty pending dict (main.py lines 18-30). -/
def initialState : BridgeState :=
  { activeConnections := []
    messageHistory := []
    lastUpdateTime := 0
    pendingMessages := [] }

/-- `should_process_message(address)` (main.py lines 32-41).  The `address`
parameter is accepted but never read: the check and update use the single
global `last_update_time`. -/
def should_process_message (_address : String) (now : ℚ) (st : BridgeState) :
    Bool × BridgeState :=
  if now - st.lastUpdateTime ≥ MIN_UPDATE_INTERVAL then
    (true, { st with lastUpdateTime := now })
  else
    (false, st)

/-- The history-append step inside `broadcast_to_websockets` (main.py lines
65-67): `message_history.append(m)` then `pop(0)` once if the length now
exceeds `MAX_HISTORY`. -/
def historyAppend (m : WireMessage) (h : List WireMessage) : List WireMessage :=
  let h1 := h ++ [m]
  if h1.length > MAX_HISTORY then h1.tail else h1

/-- The send loop of `broadcast_to_websockets` (main.py lines 69-74): iterate
over `snapshot` (the copy `active_connections[:]`); a successful send emits an
event, a failing send removes that handle from the live list
(`active_connections.remove(ws)` removes the first occurrence).  Returns the
final live list and the send events in order. -/
def broadcastPass (m : WireMessage) (snapshot : List Conn) (live : List Conn) :
    List Conn × List (Nat × WireMessage) :=
  match snapshot with
  | [] => (live, [])
  | ws :: rest =>
    if ws.sendOk then
      let r := broadcastPass m rest live
      (r.1, (ws.id, m) :: r.2)
    else
      broadcastPass m rest (live.erase ws)

/-- `broadcast_to_websockets(message)` (main.py lines 58-74).  Everything —
timestamping, the history append, and the send loop — is guarded by
`len(active_connections) > 0`. -/
def broadcast_to_websockets (message : OscMessage) (now : ℚ)
    (st : BridgeState) : BridgeState × List (Nat × WireMessage) :=
  if st.activeConnections.length > 0 then
    let m : WireMessage :=
      { address := message.address, args := message.args, timestamp := now }
    let pass := broadcastPass m st.activeConnections st.activeConnections
    ({ st with
        messageHistory := historyAppend m st.messageHistory
        activeConnections := pass.1 },
      pass.2)
  else
    (st, [])

/-- The observable effects of one inbound OSC message: UDP forwards to the
outbound peer and WebSocket send events. -/
structure RelayOutput where
  udpForwards : List (String × List ℚ)
  wsSends : List (Nat × WireMessage)
deriving DecidableEq, Repr

/-- `handle_osc_message(address, *args)` (main.py lines 76-92).  Rate check
first; on admission the args are coerced (an uncaught `ValueError` propagates:
`Except.error`, with the already-mutated globals), then the message is
forwarded over UDP and broadcast. -/
def handle_osc_message (address : String) (args : List RawArg) (now : ℚ)
    (st : BridgeState) : BridgeState × Except String RelayOutput :=
  let c := should_process_message address now st
  if c.1 then
    match coerceArgs args with
    | Except.error s => (c.2, Except.error s)
    | Except.ok floatArgs =>
      let b := broadcast_to_websockets
        { address := address, args := floatArgs } now c.2
      (b.1, Except.ok { udpForwards := [(address, floatArgs)], wsSends := b.2 })
  else
    (c.2, Except.ok { udpForwards := [], wsSends := [] })

/-- The connection-setup part of `websocket_handler` (main.py lines 94-101):
append the new handle to `active_connections`.  Nothing is sent to the new
connection before the receive loop starts — in particular `message_history`
is not replayed.  Returns the new state and the messages sent to the new
connection during setup. -/
def websocket_onConnect (ws : Conn) (st : BridgeState) :
    BridgeState × List WireMessage :=
  ({ st with activeConnections := st.activeConnections ++ [ws] }, [])

/-- A raw TEXT frame from a client after `json.loads`: either malformed (the
parse, or any dictionary access on the result, raises) or a parsed object
with a `type`, `address` and `args`. -/
inductive ClientFrame where
  | malformed (raw : String)
  | cmd (type : String) (address : String) (args : List RawArg)
deriving DecidableEq, Repr

/-- The per-TEXT-frame body of `websocket_handler` (main.py lines 105-119):
parse, and when `type == "osc_message"` coerce the args and forward over UDP;
every exception (parse failure or coercion failure) is caught and logged, the
connection stays registered and the state is untouched.  Returns the state
and the UDP forwards. -/
def websocket_onClientMessage (frame : ClientFrame) (st : BridgeState) :
    BridgeState × List (String × List ℚ) :=
  match frame with
  | ClientFrame.malformed _ => (st, [])
  | ClientFrame.cmd t address args =>
    if t = "osc_message" then
      match coerceArgs args with
      | Except.error _ => (st, [])
      | Except.ok floatArgs => (st, [(address, floatArgs)])
    else
      (st, [])

/-- Modelled from the spec: `enqueuePending(address, args)` is documented in
§4.5 as a distinct entry point feeding `pending_messages`, but no code under
src/ populates that dict.  Per the spec's PendingBuffer data model (§3), it
maps each address to the most recently seen args, overwriting in place on a
repeated address; modelled as a Python-dict-style association list (insertion
order kept, overwrite preserves position). -/
def enqueuePending (address : String) (args : List ℚ) :
    List (String × List ℚ) → List (String × List ℚ)
  | [] => [(address, args)]
  | (a, v) :: rest =>
    if a = address then (a, args) :: rest
    else (a, v) :: enqueuePending address args rest

/-- The broadcast loop of `process_pending_messages` (main.py lines 50-56):
one `broadcast_to_websockets` call per buffered (address, args) pair, in
order.  Returns the final state, the messages handed to broadcast (one per
pair), and the per-client send events. -/
def broadcastPendingLoop (msgs : List (String × List ℚ)) (now : ℚ)
    (st : BridgeState) :
    BridgeState × List OscMessage × List (Nat × WireMessage) :=
  match msgs with
  | [] => (st, [], [])
  | (a, v) :: rest =>
    let b := broadcast_to_websockets { address := a, args := v } now st
    let r := broadcastPendingLoop rest now b.1
    (r.1, { address := a, args := v } :: r.2.1, b.2 ++ r.2.2)

/-- `process_pending_messages()` (main.py lines 43-56).  Python's `and`
short-circuits: the rate limiter is consulted only when the dict is
non-empty.  On admission the dict is copied, cleared, and each pair is
broadcast. -/
def process_pending_messages (now : ℚ) (st : BridgeState) :
    BridgeState × List OscMessage × List (Nat × WireMessage) :=
  if st.pendingMessages ≠ [] then
    let c := should_process_message "batch" now st
    if c.1 then
      let toSend := c.2.pendingMessages
      broadcastPendingLoop toSend now { c.2 with pendingMessages := [] }
    else
      (c.2, [], [])
  else
    (st, [], [])

/-! ### Helper lemmas -/

lemma spm_admitted (k : String) (now : ℚ) (st : BridgeState)
    (h : MIN_UPDATE_INTERVAL ≤ now - st.lastUpdateTime) :
    should_process_message k now st = (true, { st with lastUpdateTime := now }) := by
  simp [should_process_message, h]

lemma spm_refused (k : String) (now : ℚ) (st : BridgeState)
    (h : now - st.lastUpdateTime < MIN_UPDATE_INTERVAL) :
    should_process_message k now st = (false, st) := by
  simp [should_process_message, not_le.mpr h]

lemma handle_admitted_error (address : String) (args : List RawArg) (now : ℚ)
    (st : BridgeState) (s : String)
    (h1 : MIN_UPDATE_INTERVAL ≤ now - st.lastUpdateTime)
    (h2 : coerceArgs args = Except.error s) :
    handle_osc_message address args now st =
      ({ st with lastUpdateTime := now }, Except.error s) := by
  simp [handle_osc_message, spm_admitted _ _ _ h1, h2]

lemma handle_refused (address : String) (args : List RawArg) (now : ℚ)
    (st : BridgeState)
    (h : now - st.lastUpdateTime < MIN_UPDATE_INTERVAL) :
    handle_osc_message address args now st =
      (st, Except.ok { udpForwards := [], wsSends := [] }) := by
  simp [handle_osc_message, spm_refused _ _ _ h]

lemma handle_admitted_ok (address : String) (args : List RawArg)
    (floatArgs : List ℚ) (now : ℚ) (st : BridgeState)
    (h1 : MIN_UPDATE_INTERVAL ≤ now - st.lastUpdateTime)
    (h2 : coerceArgs args = Except.ok floatArgs) :
    handle_osc_message address args now st =
      ((broadcast_to_websockets { address := address, args := floatArgs } now
          { st with lastUpdateTime := now }).1,
        Except.ok
          { udpForwards := [(address, floatArgs)]
            wsSends := (broadcast_to_websockets
              { address := address, args := floatArgs } now
              { st with lastUpdateTime := now }).2 }) := by
  simp [handle_osc_message, spm_admitted _ _ _ h1, h2]

lemma broadcastPass_sends (m : WireMessage) (snapshot live : List Conn) :
    (broadcastPass m snapshot live).2 =
      (snapshot.filter fun ws => ws.sendOk).map fun ws => (ws.id, m) := by
  induction snapshot generalizing live with
  | nil => simp [broadcastPass]
  | cons ws rest ih =>
    by_cases h : ws.sendOk <;> simp [broadcastPass, h, ih]

lemma broadcast_no_clients (message : OscMessage) (now : ℚ) (st : BridgeState)
    (h : st.activeConnections = []) :
    broadcast_to_websockets message now st = (st, []) := by
  simp [broadcast_to_websockets, h]

lemma broadcast_with_clients (message : OscMessage) (now : ℚ)
    (st : BridgeState) (h : st.activeConnections ≠ []) :
    (broadcast_to_websockets message now st).1.messageHistory =
      historyAppend
        { address := message.address, args := message.args, timestamp := now }
        st.messageHistory ∧
    (broadcast_to_websockets message now st).2 =
      (st.activeConnections.filter fun ws => ws.sendOk).map
        (fun ws => (ws.id,
          ({ address := message.address, args := message.args,
             timestamp := now } : WireMessage))) := by
  have hlen : 0 < st.activeConnections.length := List.length_pos.mpr h
  simp [broadcast_to_websockets, hlen, broadcastPass_sends]

lemma broadcast_pending_unchanged (message : OscMessage) (now : ℚ)
    (st : BridgeState) :
    (broadcast_to_websockets message now st).1.pendingMessages =
      st.pendingMessages := by
  unfold broadcast_to_websockets
  by_cases h : 0 < st.activeConnections.length <;> simp [h]

/-! ### Claims -/

/-- Claim C1, counterexample.  The rate limiter is not per channel key: with
the initial state, the first `should_process_message` call for the fresh key
"b" at time 1 returns true, but after an admission on the unrelated key "a"
at the same time, the first call for the fresh key "b" returns false — an
admission on one key changes the decision for another key, and a fresh key's
first call is not always admitted. -/
theorem C1_counterexample :
    (should_process_message "b" 1 initialState).1 = true ∧
    (should_process_message "b" 1
      (should_process_message "a" 1 initialState).2).1 = false := by
  norm_num [should_process_message, initialState, MIN_UPDATE_INTERVAL]

/-- Claim C1 as amended: admission is global, not per key.
`should_process_message` ignores its channel-key argument entirely — any two
keys give identical results — and returns true, recording `now` as the single
shared last-accepted time, exactly when `now` minus that shared time is at
least `MIN_UPDATE_INTERVAL`; otherwise it returns false and leaves the state
unchanged.  An admission on any key therefore affects the decision for every
other key. -/
theorem C1_rate_limit_is_global (k k' : String) (now : ℚ) (st : BridgeState) :
    should_process_message k now st = should_process_message k' now st ∧
    ((should_process_message k now st).1 = true ↔
      MIN_UPDATE_INTERVAL ≤ now - st.lastUpdateTime) ∧
    ((should_process_message k now st).1 = true →
      (should_process_message k now st).2 =
        { st with lastUpdateTime := now }) ∧
    ((should_process_message k now st).1 = false →
      (should_process_message k now st).2 = st) := by
  unfold should_process_message
  by_cases h : MIN_UPDATE_INTERVAL ≤ now - st.lastUpdateTime <;> simp [h]

/-- Witness for C1: at time 1 from the initial state, key "a" is admitted,
the shared last-accepted time becomes 1, and the result is identical to what
key "b" would get. -/
theorem C1_witness :
    (should_process_message "a" 1 initialState).1 = true ∧
    (should_process_message "a" 1 initialState).2 =
      { initialState with lastUpdateTime := 1 } ∧
    should_process_message "a" 1 initialState =
      should_process_message "b" 1 initialState := by
  have h := C1_rate_limit_is_global "a" "b" 1 initialState
  have h1 : (should_process_message "a" 1 initialState).1 = true := by
    rw [h.2.1]
    norm_num [initialState, MIN_UPDATE_INTERVAL]
  exact ⟨h1, h.2.2.1 h1, h.1⟩

/-- Claim C2.  The connect path registers the new connection but replays
nothing: with history holding three messages A, B, C, `websocket_onConnect`
appends the handle to the connection list, sends the empty list of messages
to the new client, and the empty replay differs from the [A, B, C] the claim
requires.  (The history is kept — main.py line 21 says it is "for new
connections" — but no replay code exists.) -/
theorem C2_connect_replays_nothing :
    (websocket_onConnect { id := 7, sendOk := true }
      { activeConnections := []
        messageHistory :=
          [{ address := "/a", args := [1], timestamp := 1 },
           { address := "/b", args := [2], timestamp := 2 },
           { address := "/c", args := [3], timestamp := 3 }]
        lastUpdateTime := 0
        pendingMessages := [] }) =
      ({ activeConnections := [{ id := 7, sendOk := true }]
         messageHistory :=
           [{ address := "/a", args := [1], timestamp := 1 },
            { address := "/b", args := [2], timestamp := 2 },
            { address := "/c", args := [3], timestamp := 3 }]
         lastUpdateTime := 0
         pendingMessages := [] }, []) ∧
    ([] : List WireMessage) ≠
      [{ address := "/a", args := [1], timestamp := 1 },
       { address := "/b", args := [2], timestamp := 2 },
       { address := "/c", args := [3], timestamp := 3 }] := by
  exact ⟨rfl, by simp⟩

/-- Claim C5, counterexample.  An admitted message whose argument cannot be
coerced makes `handle_osc_message` raise: from the initial state at time 1
with the single non-numeric argument "x", the handler's result is the
propagated error, not a normal return — the failure is neither caught nor
logged inside the handler — and the rate state has already been mutated. -/
theorem C5_counterexample :
    (handle_osc_message "/x" [RawArg.str "x"] 1 initialState).2 =
      Except.error "x" ∧
    (handle_osc_message "/x" [RawArg.str "x"] 1 initialState).1 =
      { initialState with lastUpdateTime := 1 } := by
  have h := handle_admitted_error "/x" [RawArg.str "x"] 1 initialState "x"
    (by norm_num [initialState, MIN_UPDATE_INTERVAL]) rfl
  rw [h]
  exact ⟨rfl, rfl⟩

/-- Claim C5 as amended: for every admitted inbound message with a
non-coercible argument, `handle_osc_message` fails with the coercion error
and that error propagates to the caller uncaught (it is not logged or
swallowed inside the handler); no outbound forward, history append, or
broadcast occurs for that message — the only state change is the
rate-limiter time already recorded at admission. -/
theorem C5_coercion_error_propagates (address : String) (args : List RawArg)
    (now : ℚ) (st : BridgeState) (s : String)
    (h1 : MIN_UPDATE_INTERVAL ≤ now - st.lastUpdateTime)
    (h2 : coerceArgs args = Except.error s) :
    handle_osc_message address args now st =
      ({ st with lastUpdateTime := now }, Except.error s) :=
  handle_admitted_error address args now st s h1 h2

/-- Witness for C5: the concrete admitted message "/x" with argument "x" at
time 1 from the initial state returns the error and only the time change. -/
theorem C5_witness :
    MIN_UPDATE_INTERVAL ≤ 1 - initialState.lastUpdateTime ∧
    coerceArgs [RawArg.str "x"] = Except.error "x" ∧
    handle_osc_message "/x" [RawArg.str "x"] 1 initialState =
      ({ initialState with lastUpdateTime := 1 }, Except.error "x") := by
  refine ⟨by norm_num [initialState, MIN_UPDATE_INTERVAL], rfl, ?_⟩
  exact C5_coercion_error_propagates "/x" [RawArg.str "x"] 1 initialState "x"
    (by norm_num [initialState, MIN_UPDATE_INTERVAL]) rfl

/-- Claim C10.  The rate check and its state update precede argument
coercion: an admitted message whose args then fail coercion has already
advanced the shared last-accepted time to `now`, and a subsequent
well-formed message arriving within `MIN_UPDATE_INTERVAL` of it is dropped
(no forward, no broadcast, state unchanged).  Coercion failure does not roll
back rate state. -/
theorem C10_failed_coercion_consumes_slot (address : String)
    (args : List RawArg) (now : ℚ) (st : BridgeState) (s : String)
    (h1 : MIN_UPDATE_INTERVAL ≤ now - st.lastUpdateTime)
    (h2 : coerceArgs args = Except.error s) :
    (handle_osc_message address args now st).1.lastUpdateTime = now ∧
    (∀ (a2 : String) (args2 : List RawArg) (f2 : List ℚ) (now2 : ℚ),
      coerceArgs args2 = Except.ok f2 →
      now2 - now < MIN_UPDATE_INTERVAL →
      handle_osc_message a2 args2 now2 (handle_osc_message address args now st).1 =
        ((handle_osc_message address args now st).1,
          Except.ok { udpForwards := [], wsSends := [] })) := by
  have h := handle_admitted_error address args now st s h1 h2
  rw [h]
  refine ⟨rfl, ?_⟩
  intro a2 args2 f2 now2 _ hlt
  exact handle_refused a2 args2 now2 _ (by simpa using hlt)

/-- Witness for C10: "/x" with bad arg "x" at time 1 consumes the slot; a
well-formed "/y" with arg 2 at time 1 + 1/120 (within 1/60 of it) is
dropped. -/
theorem C10_witness :
    MIN_UPDATE_INTERVAL ≤ 1 - initialState.lastUpdateTime ∧
    coerceArgs [RawArg.str "x"] = Except.error "x" ∧
    coerceArgs [RawArg.num 2] = Except.ok [2] ∧
    (1 + 1/120 : ℚ) - 1 < MIN_UPDATE_INTERVAL ∧
    (handle_osc_message "/x" [RawArg.str "x"] 1 initialState).1.lastUpdateTime = 1 ∧
    handle_osc_message "/y" [RawArg.num 2] (1 + 1/120)
        (handle_osc_message "/x" [RawArg.str "x"] 1 initialState).1 =
      ((handle_osc_message "/x" [RawArg.str "x"] 1 initialState).1,
        Except.ok { udpForwards := [], wsSends := [] }) := by
  have ha : MIN_UPDATE_INTERVAL ≤ 1 - initialState.lastUpdateTime := by
    norm_num [initialState, MIN_UPDATE_INTERVAL]
  have hb : (1 + 1/120 : ℚ) - 1 < MIN_UPDATE_INTERVAL := by
    norm_num [MIN_UPDATE_INTERVAL]
  have h := C10_failed_coercion_consumes_slot "/x" [RawArg.str "x"] 1
    initialState "x" ha rfl
  exact ⟨ha, rfl, rfl, hb, h.1, h.2 "/y" [RawArg.num 2] [2] (1 + 1/120) rfl hb⟩

/-- Claim C9.  With no WebSocket clients connected, an admitted, coercible
inbound message is still forwarded to the outbound UDP peer, but the
broadcast does nothing: no client sends, and the message is never appended
to the history (every field except the rate time is unchanged), so a client
connecting afterwards receives nothing for it. -/
theorem C9_no_clients_no_history (address : String) (args : List RawArg)
    (floatArgs : List ℚ) (now : ℚ) (st : BridgeState)
    (hconn : st.activeConnections = [])
    (h1 : MIN_UPDATE_INTERVAL ≤ now - st.lastUpdateTime)
    (h2 : coerceArgs args = Except.ok floatArgs) :
    handle_osc_message address args now st =
      ({ st with lastUpdateTime := now },
        Except.ok { udpForwards := [(address, floatArgs)], wsSends := [] }) ∧
    (∀ ws : Conn,
      (websocket_onConnect ws (handle_osc_message address args now st).1).2 =
        []) := by
  have hb : broadcast_to_websockets { address := address, args := floatArgs }
      now { st with lastUpdateTime := now } =
      ({ st with lastUpdateTime := now }, []) :=
    broadcast_no_clients _ _ _ (by simpa using hconn)
  have h := handle_admitted_ok address args floatArgs now st h1 h2
  rw [hb] at h
  exact ⟨h, fun ws => rfl⟩

/-- Witness for C9: from the initial state (no clients), "/x" with arg 5 at
time 1 forwards [( "/x", [5])] over UDP, sends nothing, leaves history
empty. -/
theorem C9_witness :
    initialState.activeConnections = [] ∧
    MIN_UPDATE_INTERVAL ≤ 1 - initialState.lastUpdateTime ∧
    coerceArgs [RawArg.num 5] = Except.ok [5] ∧
    handle_osc_message "/x" [RawArg.num 5] 1 initialState =
      ({ initialState with lastUpdateTime := 1 },
        Except.ok { udpForwards := [("/x", [5])], wsSends := [] }) := by
  have ha : MIN_UPDATE_INTERVAL ≤ 1 - initialState.lastUpdateTime := by
    norm_num [initialState, MIN_UPDATE_INTERVAL]
  exact ⟨rfl, ha, rfl,
    (C9_no_clients_no_history "/x" [RawArg.num 5] [5] 1 initialState rfl ha
      rfl).1⟩

/-- Claim C3, counterexample.  The claim's "regardless of how many clients
are currently connected" fails: from the initial state (zero clients), the
admitted coercible message "/x" with arg 1 at time 1 is forwarded over UDP
but `broadcast_to_websockets` returns without appending anything — the final
history is empty, not the one-element history the claimed unconditional
append would produce. -/
theorem C3_counterexample :
    (handle_osc_message "/x" [RawArg.num 1] 1 initialState).1.messageHistory
      = [] ∧
    ([] : List WireMessage) ≠
      [{ address := "/x", args := [1], timestamp := 1 }] ∧
    (handle_osc_message "/x" [RawArg.num 1] 1 initialState).2 =
      Except.ok { udpForwards := [("/x", [1])], wsSends := [] } := by
  have h := handle_admitted_ok "/x" [RawArg.num 1] [1] 1 initialState
    (by norm_num [initialState, MIN_UPDATE_INTERVAL]) rfl
  have hb : broadcast_to_websockets { address := "/x", args := [1] } 1
      { initialState with lastUpdateTime := 1 } =
      ({ initialState with lastUpdateTime := 1 }, []) :=
    broadcast_no_clients _ _ _ rfl
  rw [hb] at h
  rw [h]
  exact ⟨rfl, by simp, rfl⟩

/-- Claim C3 as amended: for every admitted inbound message with coercible
args, `handle_osc_message` forwards the message unchanged to the outbound
UDP peer; when at least one client is connected it also appends the
timestamped message to the history and sends it to every registered client
whose send succeeds; when no clients are connected, nothing is appended and
nothing is sent. -/
theorem C3_forward_append_broadcast (address : String) (args : List RawArg)
    (floatArgs : List ℚ) (now : ℚ) (st : BridgeState)
    (h1 : MIN_UPDATE_INTERVAL ≤ now - st.lastUpdateTime)
    (h2 : coerceArgs args = Except.ok floatArgs) :
    (handle_osc_message address args now st).2 =
      Except.ok
        { udpForwards := [(address, floatArgs)]
          wsSends := (st.activeConnections.filter fun ws => ws.sendOk).map
            (fun ws => (ws.id,
              ({ address := address, args := floatArgs,
                 timestamp := now } : WireMessage))) } ∧
    (handle_osc_message address args now st).1.messageHistory =
      (if st.activeConnections = [] then st.messageHistory
       else historyAppend
         { address := address, args := floatArgs, timestamp := now }
         st.messageHistory) := by
  have h := handle_admitted_ok address args floatArgs now st h1 h2
  rw [h]
  by_cases hc : st.activeConnections = []
  · have hb := broadcast_no_clients
      { address := address, args := floatArgs } now
      { st with lastUpdateTime := now } (by simpa using hc)
    rw [hb]
    simp [hc]
  · have hb := broadcast_with_clients
      { address := address, args := floatArgs } now
      { st with lastUpdateTime := now } (by simpa using hc)
    simp only [hc, if_false]
    exact ⟨by rw [hb.2], hb.1⟩

/-- Witness for C3: one connected healthy client with id 9; the admitted
message "/x" with arg 1 at time 1 is forwarded over UDP, appended to history
and delivered to client 9. -/
theorem C3_witness :
    MIN_UPDATE_INTERVAL ≤ 1 - (0 : ℚ) ∧
    coerceArgs [RawArg.num 1] = Except.ok [1] ∧
    (handle_osc_message "/x" [RawArg.num 1] 1
      { activeConnections := [{ id := 9, sendOk := true }]
        messageHistory := []
        lastUpdateTime := 0
        pendingMessages := [] }).2 =
      Except.ok
        { udpForwards := [("/x", [1])]
          wsSends := [(9, { address := "/x", args := [1], timestamp := 1 })] } ∧
    (handle_osc_message "/x" [RawArg.num 1] 1
      { activeConnections := [{ id := 9, sendOk := true }]
        messageHistory := []
        lastUpdateTime := 0
        pendingMessages := [] }).1.messageHistory =
      [{ address := "/x", args := [1], timestamp := 1 }] := by
  have ha : MIN_UPDATE_INTERVAL ≤ 1 - (0 : ℚ) := by
    norm_num [MIN_UPDATE_INTERVAL]
  have h := C3_forward_append_broadcast "/x" [RawArg.num 1] [1] 1
    { activeConnections := [{ id := 9, sendOk := true }]
      messageHistory := []
      lastUpdateTime := 0
      pendingMessages := [] } ha rfl
  refine ⟨ha, rfl, ?_, ?_⟩
  · rw [h.1]; rfl
  · rw [h.2]; simp [historyAppend, MAX_HISTORY]

/-- Claim C4.  `broadcast_to_websockets` iterates over a stable snapshot of
the client list: with clients c1, c2, c3 registered where c2's send always
fails and the others succeed, one broadcast delivers the timestamped message
to c1 and c3 in order, removes exactly c2 from the client list within that
pass, and a subsequent broadcast reaches only c1 and c3. -/
theorem C4_broadcast_prunes_failed (m m2 : OscMessage) (now now2 : ℚ)
    (c1 c2 c3 : Conn) (hist : List WireMessage) (last : ℚ)
    (pend : List (String × List ℚ))
    (h1 : c1.sendOk = true) (h2 : c2.sendOk = false) (h3 : c3.sendOk = true) :
    (broadcast_to_websockets m now
        { activeConnections := [c1, c2, c3]
          messageHistory := hist
          lastUpdateTime := last
          pendingMessages := pend }).2 =
      [(c1.id, { address := m.address, args := m.args, timestamp := now }),
       (c3.id, { address := m.address, args := m.args, timestamp := now })] ∧
    (broadcast_to_websockets m now
        { activeConnections := [c1, c2, c3]
          messageHistory := hist
          lastUpdateTime := last
          pendingMessages := pend }).1.activeConnections = [c1, c3] ∧
    (broadcast_to_websockets m2 now2
        (broadcast_to_websockets m now
          { activeConnections := [c1, c2, c3]
            messageHistory := hist
            lastUpdateTime := last
            pendingMessages := pend }).1).2 =
      [(c1.id, { address := m2.address, args := m2.args, timestamp := now2 }),
       (c3.id,
         { address := m2.address, args := m2.args, timestamp := now2 })] := by
  have h12 : c1 ≠ c2 := by
    intro h
    rw [h, h2] at h1
    exact Bool.false_ne_true h1
  have herase : [c1, c2, c3].erase c2 = [c1, c3] := by
    rw [List.erase_cons_tail, List.erase_cons_head]
    simp [h12]
  have hpass : broadcastPass
      { address := m.address, args := m.args, timestamp := now }
      [c1, c2, c3] [c1, c2, c3] =
      ([c1, c3],
        [(c1.id, { address := m.address, args := m.args, timestamp := now }),
         (c3.id,
           { address := m.address, args := m.args, timestamp := now })]) := by
    simp [broadcastPass, h1, h2, h3, herase]
  have hb1 : (broadcast_to_websockets m now
      { activeConnections := [c1, c2, c3]
        messageHistory := hist
        lastUpdateTime := last
        pendingMessages := pend }) =
      ({ activeConnections := [c1, c3]
         messageHistory := historyAppend
           { address := m.address, args := m.args, timestamp := now } hist
         lastUpdateTime := last
         pendingMessages := pend },
        [(c1.id, { address := m.address, args := m.args, timestamp := now }),
         (c3.id,
           { address := m.address, args := m.args, timestamp := now })]) := by
    simp [broadcast_to_websockets, hpass]
  have hpass2 : broadcastPass
      { address := m2.address, args := m2.args, timestamp := now2 }
      [c1, c3] [c1, c3] =
      ([c1, c3],
        [(c1.id,
           { address := m2.address, args := m2.args, timestamp := now2 }),
         (c3.id,
           { address := m2.address, args := m2.args, timestamp := now2 })]) := by
    simp [broadcastPass, h1, h3]
  refine ⟨by rw [hb1], by rw [hb1], ?_⟩
  rw [hb1]
  simp [broadcast_to_websockets, hpass2]

/-- Witness for C4: clients 1 (healthy), 2 (always-failing), 3 (healthy);
broadcasting "/m" [1] at time 1 delivers to 1 and 3, leaves [1, 3]
registered, and broadcasting "/n" [2] at time 2 reaches only 1 and 3. -/
theorem C4_witness :
    ({ id := 1, sendOk := true } : Conn).sendOk = true ∧
    ({ id := 2, sendOk := false } : Conn).sendOk = false ∧
    ({ id := 3, sendOk := true } : Conn).sendOk = true ∧
    (broadcast_to_websockets { address := "/m", args := [1] } 1
        { activeConnections :=
            [{ id := 1, sendOk := true }, { id := 2, sendOk := false },
             { id := 3, sendOk := true }]
          messageHistory := []
          lastUpdateTime := 0
          pendingMessages := [] }).2 =
      [(1, { address := "/m", args := [1], timestamp := 1 }),
       (3, { address := "/m", args := [1], timestamp := 1 })] ∧
    (broadcast_to_websockets { address := "/m", args := [1] } 1
        { activeConnections :=
            [{ id := 1, sendOk := true }, { id := 2, sendOk := false },
             { id := 3, sendOk := true }]
          messageHistory := []
          lastUpdateTime := 0
          pendingMessages := [] }).1.activeConnections =
      [{ id := 1, sendOk := true }, { id := 3, sendOk := true }] ∧
    (broadcast_to_websockets { address := "/n", args := [2] } 2
        (broadcast_to_websockets { address := "/m", args := [1] } 1
          { activeConnections :=
              [{ id := 1, sendOk := true }, { id := 2, sendOk := false },
               { id := 3, sendOk := true }]
            messageHistory := []
            lastUpdateTime := 0
            pendingMessages := [] }).1).2 =
      [(1, { address := "/n", args := [2], timestamp := 2 }),
       (3, { address := "/n", args := [2], timestamp := 2 })] := by
  have h := C4_broadcast_prunes_failed { address := "/m", args := [1] }
    { address := "/n", args := [2] } 1 2 { id := 1, sendOk := true }
    { id := 2, sendOk := false } { id := 3, sendOk := true } [] 0 []
    rfl rfl rfl
  exact ⟨rfl, rfl, rfl, h.1, h.2.1, h.2.2⟩

lemma historyAppend_length_le (m : WireMessage) (h : List WireMessage)
    (hh : h.length ≤ MAX_HISTORY) :
    (historyAppend m h).length ≤ MAX_HISTORY := by
  unfold historyAppend
  by_cases hc : (h ++ [m]).length > MAX_HISTORY
  · simp only [hc, if_pos]
    simp [List.length_tail]
    omega
  · simp only [hc, if_neg, if_false]
    simp at hc
    simpa using hc

lemma historyAppend_full (m : WireMessage) (h : List WireMessage)
    (hh : h.length = MAX_HISTORY) :
    historyAppend m h = h.tail ++ [m] := by
  unfold historyAppend
  have hc : (h ++ [m]).length > MAX_HISTORY := by
    simp [hh]
  simp only [hc, if_pos]
  cases h with
  | nil => simp [MAX_HISTORY] at hh
  | cons hd t => simp

lemma history_foldl (msgs : List WireMessage) :
    ∀ h : List WireMessage, h.length ≤ MAX_HISTORY →
      List.foldl (fun acc m => historyAppend m acc) h msgs =
        (h ++ msgs).drop ((h ++ msgs).length - MAX_HISTORY) := by
  induction msgs with
  | nil =>
    intro h hh
    simp [Nat.sub_eq_zero_of_le hh]
  | cons m rest ih =>
    intro h hh
    rw [List.foldl_cons]
    rw [ih (historyAppend m h) (historyAppend_length_le m h hh)]
    rcases Nat.lt_or_ge h.length MAX_HISTORY with hlt | hge
    · have heq : historyAppend m h = h ++ [m] := by
        have hng : ¬ (h ++ [m]).length > MAX_HISTORY := by
          simp
          omega
        simp only [historyAppend]
        rw [if_neg hng]
      rw [heq]
      simp
    · have heq2 : h.length = MAX_HISTORY := Nat.le_antisymm hh hge
      rw [historyAppend_full m h heq2]
      cases h with
      | nil => simp [MAX_HISTORY] at heq2
      | cons hd t =>
        have ht : t.length + 1 = MAX_HISTORY := by simpa using heq2
        simp only [List.tail_cons, List.append_assoc, List.singleton_append,
          List.cons_append, List.nil_append]
        have e1 : (t ++ m :: rest).length - MAX_HISTORY = rest.length := by
          simp
          omega
        have e2 : (hd :: (t ++ m :: rest)).length - MAX_HISTORY =
            rest.length + 1 := by
          simp
          omega
        rw [e1, e2, List.drop_succ_cons]

/-- Claim C6.  The history ring is bounded: an append from any state within
capacity stays within capacity (`MAX_HISTORY = 100`); an append to a full
history evicts exactly the oldest element (the head); and appending any
K > capacity messages starting from empty leaves exactly the last capacity
messages, in their original insertion order. -/
theorem C6_history_capacity :
    (∀ (m : WireMessage) (h : List WireMessage), h.length ≤ MAX_HISTORY →
      (historyAppend m h).length ≤ MAX_HISTORY) ∧
    (∀ (m : WireMessage) (h : List WireMessage), h.length = MAX_HISTORY →
      historyAppend m h = h.tail ++ [m]) ∧
    (∀ msgs : List WireMessage, MAX_HISTORY < msgs.length →
      List.foldl (fun acc m => historyAppend m acc) [] msgs =
        msgs.drop (msgs.length - MAX_HISTORY) ∧
      (List.foldl (fun acc m => historyAppend m acc) [] msgs).length =
        MAX_HISTORY) := by
  refine ⟨historyAppend_length_le, historyAppend_full, ?_⟩
  intro msgs hlen
  have h := history_foldl msgs [] (by simp)
  simp only [List.nil_append] at h
  refine ⟨h, ?_⟩
  rw [h]
  simp
  omega

/-- A sample message used by concrete witnesses. -/
def sampleMsg : WireMessage :=
  { address := "/s", args := [1], timestamp := 1 }

/-- Witness for C6: appending to an empty history keeps the bound; appending
to a full history of 100 copies evicts the head; appending 101 messages from
empty leaves the last 100. -/
theorem C6_witness :
    ([] : List WireMessage).length ≤ MAX_HISTORY ∧
    (historyAppend sampleMsg []).length ≤ MAX_HISTORY ∧
    (List.replicate 100 sampleMsg).length = MAX_HISTORY ∧
    historyAppend sampleMsg (List.replicate 100 sampleMsg) =
      (List.replicate 100 sampleMsg).tail ++ [sampleMsg] ∧
    MAX_HISTORY < (List.replicate 101 sampleMsg).length ∧
    List.foldl (fun acc m => historyAppend m acc) []
        (List.replicate 101 sampleMsg) =
      (List.replicate 101 sampleMsg).drop
        ((List.replicate 101 sampleMsg).length - MAX_HISTORY) := by
  have h1 : ([] : List WireMessage).length ≤ MAX_HISTORY := by
    simp [MAX_HISTORY]
  have h2 : (List.replicate 100 sampleMsg).length = MAX_HISTORY := by
    simp [MAX_HISTORY]
  have h3 : MAX_HISTORY < (List.replicate 101 sampleMsg).length := by
    simp [MAX_HISTORY]
  exact ⟨h1, C6_history_capacity.1 sampleMsg [] h1,
    h2, C6_history_capacity.2.1 sampleMsg _ h2,
    h3, (C6_history_capacity.2.2 _ h3).1⟩

/-- Claim C7.  The client-message path parses the raw frame; a malformed
frame is ignored without touching the state (the connection stays
registered); an `osc_message` command with coercible args forwards
(address, floatArgs) to the UDP peer; any arg failing coercion means no
forward at all.  Concretely, args ["1.5", "2", "x"] (modelled as two
coercible values 3/2 and 2 plus the non-coercible "x") fail and forward
nothing, while ["1.5", "2", "3"] forward [3/2, 2, 3]. -/
theorem C7_client_message (st : BridgeState) :
    (∀ raw : String,
      websocket_onClientMessage (ClientFrame.malformed raw) st = (st, [])) ∧
    (∀ (t address : String) (args : List RawArg) (s : String),
      coerceArgs args = Except.error s →
      websocket_onClientMessage (ClientFrame.cmd t address args) st =
        (st, [])) ∧
    (∀ (address : String) (args : List RawArg) (floatArgs : List ℚ),
      coerceArgs args = Except.ok floatArgs →
      websocket_onClientMessage
        (ClientFrame.cmd "osc_message" address args) st =
        (st, [(address, floatArgs)])) ∧
    coerceArgs [RawArg.num (3/2), RawArg.num 2, RawArg.str "x"] =
      Except.error "x" ∧
    websocket_onClientMessage
      (ClientFrame.cmd "osc_message" "/a"
        [RawArg.num (3/2), RawArg.num 2, RawArg.str "x"]) st = (st, []) ∧
    websocket_onClientMessage
      (ClientFrame.cmd "osc_message" "/a"
        [RawArg.num (3/2), RawArg.num 2, RawArg.num 3]) st =
      (st, [("/a", [3/2, 2, 3])]) := by
  refine ⟨fun raw => rfl, ?_, ?_, rfl, rfl, rfl⟩
  · intro t address args s hs
    by_cases ht : t = "osc_message" <;>
      simp [websocket_onClientMessage, ht, hs]
  · intro address args floatArgs hok
    simp [websocket_onClientMessage, hok]

/-- Witness for C7: at the initial state, a malformed frame is ignored, the
mixed-coercibility args fail with the coercion error and forward nothing,
and the fully numeric args forward [3/2, 2, 3]. -/
theorem C7_witness :
    websocket_onClientMessage (ClientFrame.malformed "oops") initialState =
      (initialState, []) ∧
    coerceArgs [RawArg.num (3/2), RawArg.num 2, RawArg.str "x"] =
      Except.error "x" ∧
    websocket_onClientMessage
      (ClientFrame.cmd "osc_message" "/a"
        [RawArg.num (3/2), RawArg.num 2, RawArg.str "x"]) initialState =
      (initialState, []) ∧
    coerceArgs [RawArg.num (3/2), RawArg.num 2, RawArg.num 3] =
      Except.ok [3/2, 2, 3] ∧
    websocket_onClientMessage
      (ClientFrame.cmd "osc_message" "/a"
        [RawArg.num (3/2), RawArg.num 2, RawArg.num 3]) initialState =
      (initialState, [("/a", [3/2, 2, 3])]) := by
  have h := C7_client_message initialState
  exact ⟨h.1 "oops", h.2.2.2.1, h.2.2.2.2.1, rfl,
    h.2.2.1 "/a" [RawArg.num (3/2), RawArg.num 2, RawArg.num 3]
      [3/2, 2, 3] rfl⟩

lemma broadcastPendingLoop_msgs (msgs : List (String × List ℚ)) (now : ℚ) :
    ∀ st : BridgeState,
      (broadcastPendingLoop msgs now st).2.1 =
        msgs.map fun p => { address := p.1, args := p.2 } := by
  induction msgs with
  | nil => intro st; simp [broadcastPendingLoop]
  | cons p rest ih =>
    intro st
    obtain ⟨a, v⟩ := p
    simp [broadcastPendingLoop, ih]

lemma broadcastPendingLoop_pending (msgs : List (String × List ℚ)) (now : ℚ) :
    ∀ st : BridgeState,
      (broadcastPendingLoop msgs now st).1.pendingMessages =
        st.pendingMessages := by
  induction msgs with
  | nil => intro st; simp [broadcastPendingLoop]
  | cons p rest ih =>
    intro st
    obtain ⟨a, v⟩ := p
    simp [broadcastPendingLoop, ih, broadcast_pending_unchanged]

lemma enqueuePending_keys (address : String) (args : List ℚ)
    (l : List (String × List ℚ)) :
    (enqueuePending address args l).map Prod.fst =
      (if address ∈ l.map Prod.fst then l.map Prod.fst
       else l.map Prod.fst ++ [address]) := by
  induction l with
  | nil => simp [enqueuePending]
  | cons p rest ih =>
    obtain ⟨b, w⟩ := p
    by_cases hb : b = address
    · simp [enqueuePending, hb]
    · by_cases hm : address ∈ rest.map Prod.fst <;>
        simp [enqueuePending, hb, hm, ih, Ne.symm hb]

lemma enqueuePending_nodup (address : String) (args : List ℚ)
    (l : List (String × List ℚ)) (h : (l.map Prod.fst).Nodup) :
    ((enqueuePending address args l).map Prod.fst).Nodup := by
  rw [enqueuePending_keys]
  by_cases hm : address ∈ l.map Prod.fst
  · simpa [hm] using h
  · simp [hm, List.nodup_append, h]

lemma enqueuePending_lookup (address : String) (args : List ℚ)
    (l : List (String × List ℚ)) :
    (enqueuePending address args l).lookup address = some args := by
  induction l with
  | nil => simp [enqueuePending, List.lookup]
  | cons p rest ih =>
    obtain ⟨b, w⟩ := p
    by_cases hb : b = address
    · simp [enqueuePending, hb, List.lookup]
    · have hba : (address == b) = false := by
        simp [Ne.symm hb]
      simp [enqueuePending, hb, List.lookup, ih, hba]

/-- Claim C8.  The batch tick: an empty buffer does nothing (the rate
limiter is not even consulted, by short-circuit) and changes nothing; a tick
whose "batch" admission is refused broadcasts nothing and leaves the whole
state unchanged; a tick with a non-empty buffer and an admitted "batch" key
clears the buffer and broadcasts exactly the buffered (address, args) pairs,
one message per pair — one per address, since `enqueuePending` keeps
addresses distinct and stores the most recently enqueued args for each. -/
theorem C8_batch_tick (now : ℚ) (st : BridgeState) :
    (st.pendingMessages = [] →
      process_pending_messages now st = (st, [], [])) ∧
    (now - st.lastUpdateTime < MIN_UPDATE_INTERVAL →
      (process_pending_messages now st).1 = st ∧
      (process_pending_messages now st).2.1 = [] ∧
      (process_pending_messages now st).2.2 = []) ∧
    (st.pendingMessages ≠ [] →
      MIN_UPDATE_INTERVAL ≤ now - st.lastUpdateTime →
      (process_pending_messages now st).1.pendingMessages = [] ∧
      (process_pending_messages now st).2.1 =
        st.pendingMessages.map (fun p => { address := p.1, args := p.2 }) ∧
      ((st.pendingMessages.map Prod.fst).Nodup →
        ((process_pending_messages now st).2.1.map
          OscMessage.address).Nodup)) ∧
    (∀ (a : String) (v : List ℚ) (l : List (String × List ℚ)),
      ((l.map Prod.fst).Nodup →
        ((enqueuePending a v l).map Prod.fst).Nodup) ∧
      (enqueuePending a v l).lookup a = some v) := by
  refine ⟨?_, ?_, ?_, fun a v l =>
    ⟨enqueuePending_nodup a v l, enqueuePending_lookup a v l⟩⟩
  · intro he
    simp [process_pending_messages, he]
  · intro hlt
    by_cases he : st.pendingMessages = []
    · simp [process_pending_messages, he]
    · simp [process_pending_messages, he, spm_refused _ _ _ hlt]
  · intro hne hadm
    have hmain : process_pending_messages now st =
        broadcastPendingLoop st.pendingMessages now
          { st with lastUpdateTime := now, pendingMessages := [] } := by
      simp [process_pending_messages, hne, spm_admitted _ _ _ hadm]
    rw [hmain]
    refine ⟨by rw [broadcastPendingLoop_pending],
      by rw [broadcastPendingLoop_msgs], ?_⟩
    intro hnd
    rw [broadcastPendingLoop_msgs]
    simpa [Function.comp] using hnd

/-- Witness for C8: enqueueing args [1] then [3] for "/b" then overwriting
"/a" with [2] leaves the buffer [("/a", [2]), ("/b", [3])]; an admitted tick
at time 1 clears it and broadcasts exactly one message per address, carrying
the latest args. -/
theorem C8_witness :
    enqueuePending "/a" [2]
        (enqueuePending "/b" [3] (enqueuePending "/a" [1] [])) =
      [("/a", [2]), ("/b", [3])] ∧
    ([("/a", [2]), ("/b", [3])] : List (String × List ℚ)) ≠ [] ∧
    MIN_UPDATE_INTERVAL ≤ 1 - (0 : ℚ) ∧
    (process_pending_messages 1
        { activeConnections := []
          messageHistory := []
          lastUpdateTime := 0
          pendingMessages :=
            [("/a", [2]), ("/b", [3])] }).1.pendingMessages = [] ∧
    (process_pending_messages 1
        { activeConnections := []
          messageHistory := []
          lastUpdateTime := 0
          pendingMessages := [("/a", [2]), ("/b", [3])] }).2.1 =
      [{ address := "/a", args := [2] }, { address := "/b", args := [3] }] ∧
    (enqueuePending "/a" [2]
        (enqueuePending "/b" [3] (enqueuePending "/a" [1] []))).lookup "/a" =
      some [2] := by
  have hadm : MIN_UPDATE_INTERVAL ≤ 1 - (0 : ℚ) := by
    norm_num [MIN_UPDATE_INTERVAL]
  have h := C8_batch_tick 1
    { activeConnections := []
      messageHistory := []
      lastUpdateTime := 0
      pendingMessages := [("/a", [2]), ("/b", [3])] }
  have h3 := h.2.2.1 (by simp) hadm
  exact ⟨rfl, by simp, hadm, h3.1, h3.2.1,
    (h.2.2.2 "/a" [2]
      (enqueuePending "/b" [3] (enqueuePending "/a" [1] []))).2⟩

end OscBridge
